import Mathlib

/-!
# Verification of the koin-deck-retro-player virtual controller

Shallow embedding of the touch-gesture-to-input-event translation layer:

* `src/components/VirtualController/utils/keyboardEvents.ts`
  (`getKeyName`, `getKeyboardCode`),
* the D-pad component (`Dpad`): direction computation from touch geometry,
  direction-set diffing, and the long-press drag state machine,
* the generic virtual-button touch handler (`useTouchHandlers`): tap / hold /
  long-press-drag disambiguation,
* the `VirtualController` container: the pressed-button set and its press /
  release / release-all handlers.

Pure numeric code (touch geometry, clamping) is embedded over `ℝ` (where the
source uses `Math.sqrt` / `Math.atan2`) or `ℚ` (where it uses only field
operations and min/max).  The imperative event handlers are embedded as state
transition functions `State → Input → State × List Event`; branch conditions
the source computes from touch coordinates (`distance < threshold` tests) are
passed as explicit `Bool` inputs to keep the machines executable, and are tied
back to the real-valued geometry in the theorems that need them.
-/

namespace VC

/-- The four D-pad directions (`type Direction` in `Dpad`). -/
inductive Direction where
  | up | down | left | right
deriving DecidableEq, Repr

/-- Canonical enumeration of the four directions.  JS `Set` iteration follows
insertion order; the diff routine below iterates this fixed order instead,
which fixes one of the orders the source may produce (the set of emitted
events is order-independent). -/
def Direction.all : List Direction := [.up, .down, .left, .right]

instance : Fintype Direction :=
  ⟨⟨{Direction.up, Direction.down, Direction.left, Direction.right}, by decide⟩,
   by intro x; cases x <;> decide⟩

/-- A set of directions (the D-pad's `activeDirectionsRef` contents),
represented by four membership flags. -/
structure Dirs where
  up : Bool
  down : Bool
  left : Bool
  right : Bool
deriving DecidableEq, Repr

/-- Membership test (`Set.has`). -/
def Dirs.has (s : Dirs) : Direction → Bool
  | .up => s.up
  | .down => s.down
  | .left => s.left
  | .right => s.right

/-- The empty direction set (`new Set()`). -/
def Dirs.none : Dirs := ⟨false, false, false, false⟩

/-- Observable effects emitted by the handlers: synthetic keyboard events
(`dispatchKeyboardEvent`), drag position updates (`onPositionChange`), and
haptic pulses (`navigator.vibrate`, carrying the pattern). -/
inductive OutEv where
  | keydown (code : String)
  | keyup (code : String)
  | posUpd
  | vibrate (pattern : List Nat)
deriving DecidableEq, Repr

/-- `Dpad.getKeyCode`: with no `controls` mapping fall back to the arrow-key
defaults; otherwise `controls[direction] || ''`. -/
def dpadKeyCode (controls : Option (Direction → Option String)) (d : Direction) :
    String :=
  match controls with
  | Option.none =>
      (match d with
       | .up => "ArrowUp"
       | .down => "ArrowDown"
       | .left => "ArrowLeft"
       | .right => "ArrowRight")
  | Option.some m => (m d).getD ""

/-- `Dpad.updateDirections`, event part: directions leaving the active set emit
a key-up; directions entering emit a 5 ms haptic pulse then a key-down; a
direction with an empty mapped code emits nothing (`if (keyCode)`). -/
def updateDirEvents (code : Direction → String) (prev nw : Dirs) : List OutEv :=
  ((Direction.all.filter fun d => prev.has d && !nw.has d && !(code d == "")).map
      fun d => OutEv.keyup (code d))
    ++ ((Direction.all.filter fun d => nw.has d && !prev.has d && !(code d == "")).flatMap
      fun d => [OutEv.vibrate [5], OutEv.keydown (code d)])

/-- `String.prototype.startsWith`, expressed on the underlying character list
(extensionally equal to `String.startsWith`, but kernel-reducible). -/
def strStartsWith (s p : String) : Bool := p.data.isPrefixOf s.data

/-- `String.prototype.slice(n)`, expressed on the underlying character list
(extensionally equal to `String.drop`, but kernel-reducible). -/
def strDrop (s : String) (n : Nat) : String := String.mk (s.data.drop n)

/-- `String.prototype.toLowerCase`, expressed on the underlying character list
(extensionally equal to `String.toLower`, but kernel-reducible). -/
def strToLower (s : String) : String := String.mk (s.data.map Char.toLower)

/-- `getKeyName` from `keyboardEvents.ts`. -/
def getKeyName (code : String) : String :=
  if strStartsWith code "Key" then strToLower (strDrop code 3)
  else if strStartsWith code "Arrow" then strDrop code 5
  else if code = "Enter" then "Enter"
  else if code = "ShiftRight" || code = "ShiftLeft" then "Shift"
  else code

/-- Modelled from the spec: the claimed derivation rule for the human key name
("strip the Key / Arrow prefixes, special-case Enter and the Shift keys, else
pass through") — WITHOUT the lowercasing the source applies after stripping
"Key".  Used only to compare the claim's wording against `getKeyName`. -/
def claimedKeyName (code : String) : String :=
  if strStartsWith code "Key" then strDrop code 3
  else if strStartsWith code "Arrow" then strDrop code 5
  else if code = "Enter" then "Enter"
  else if code = "ShiftRight" || code = "ShiftLeft" then "Shift"
  else code

example : getKeyName "KeyA" = "a" := by decide
example : getKeyName "KeyA" ≠ claimedKeyName "KeyA" := by decide
example : getKeyName "ArrowUp" = "Up" := by decide

/-! ## The D-pad drag / direction state machine (`Dpad` component)

State: `activeTouchRef`, `activeDirectionsRef`, `isDragging`, and whether the
drag-activation timer (`dragTimerRef`) is pending.  The fixed component props
`controls` and whether `onPositionChange` is supplied (`hasPosCb`) parametrise
the steps.  The branch conditions the source computes from touch coordinates —
`distFromCenter < size * CENTER_TOUCH_RADIUS` at touch-start (`nearCenter`),
`moveDistance > 15` at touch-move (`moved15`), and whether
`getBoundingClientRect` returned a rectangle (`rectOk`) — enter as `Bool`
inputs; the computed `getDirectionsFromTouch(...)` set enters as the `Dirs`
input `touchDirs`.  Drag position updates are abstracted to the marker event
`OutEv.posUpd` (their clamping arithmetic is modelled separately below). -/

structure DpadState where
  activeTouch : Option Nat
  dirs : Dirs
  isDragging : Bool
  timerPending : Bool
deriving DecidableEq, Repr

/-- The mount-time state: no touch, no active direction, not dragging. -/
def dpadInit : DpadState := ⟨Option.none, Dirs.none, false, false⟩

/-- `Dpad.updateDirections`: emit the diff events and store the new set. -/
def dpadApplyDirections (controls : Option (Direction → Option String))
    (s : DpadState) (nd : Dirs) : DpadState × List OutEv :=
  ({s with dirs := nd}, updateDirEvents (dpadKeyCode controls) s.dirs nd)

/-- `Dpad.startDragging`: set `isDragging`, emit a key-up for every currently
active direction, clear the active set, then the drag haptic pattern. -/
def dpadStartDragging (controls : Option (Direction → Option String))
    (s : DpadState) : DpadState × List OutEv :=
  ({s with isDragging := true, dirs := Dirs.none},
    ((Direction.all.filter fun d => s.dirs.has d && !(dpadKeyCode controls d == "")).map
        fun d => OutEv.keyup (dpadKeyCode controls d))
      ++ [OutEv.vibrate [10, 30, 10]])

/-- `Dpad.handleTouchStart`: ignore a second touch; record the touch; if the
rectangle is unavailable return early; arm the drag timer when the touch is
near the pad's center and repositioning is enabled; finally (when not
dragging) run direction detection. -/
def dpadTouchStart (controls : Option (Direction → Option String))
    (hasPosCb : Bool) (s : DpadState) (tid : Nat) (rectOk nearCenter : Bool)
    (touchDirs : Dirs) : DpadState × List OutEv :=
  if s.activeTouch.isSome then (s, [])
  else
    let s1 : DpadState := {s with activeTouch := Option.some tid}
    if !rectOk then (s1, [])
    else
      let s2 : DpadState :=
        if nearCenter && hasPosCb then {s1 with timerPending := true} else s1
      if !s.isDragging then dpadApplyDirections controls s2 touchDirs
      else (s2, [])

/-- The `dragTimerRef` timeout firing: calls `startDragging`. -/
def dpadTimerFire (controls : Option (Direction → Option String))
    (s : DpadState) : DpadState × List OutEv :=
  if s.timerPending then dpadStartDragging controls {s with timerPending := false}
  else (s, [])

/-- `Dpad.handleTouchMove`: ignore moves of other touches; while dragging
(with repositioning enabled) emit a position update; otherwise a large enough
move cancels the pending drag timer and direction detection runs. -/
def dpadTouchMove (controls : Option (Direction → Option String))
    (hasPosCb : Bool) (s : DpadState) (tid : Nat) (moved15 rectOk : Bool)
    (touchDirs : Dirs) : DpadState × List OutEv :=
  if !(s.activeTouch == Option.some tid) then (s, [])
  else if s.isDragging && hasPosCb then (s, [OutEv.posUpd])
  else
    let s1 : DpadState := if moved15 then {s with timerPending := false} else s
    if rectOk then dpadApplyDirections controls s1 touchDirs else (s1, [])

/-- `Dpad.handleTouchEnd` (also bound to `touchcancel`): always clear the drag
timer; if the tracked touch ended, drop it, and either exit drag mode or
release all active directions. -/
def dpadTouchEnd (controls : Option (Direction → Option String))
    (s : DpadState) (tid : Nat) : DpadState × List OutEv :=
  let s0 : DpadState := {s with timerPending := false}
  if s0.activeTouch == Option.some tid then
    let s1 : DpadState := {s0 with activeTouch := Option.none}
    if s1.isDragging then ({s1 with isDragging := false}, [])
    else
      ({s1 with dirs := Dirs.none},
        (Direction.all.filter fun d => s.dirs.has d && !(dpadKeyCode controls d == "")).map
          fun d => OutEv.keyup (dpadKeyCode controls d))
  else (s0, [])

/-- States of the `Dpad` machine reachable from the mount-time state by touch
events and timer firings (for a fixed `controls` mapping and a fixed
`onPositionChange` presence). -/
inductive DpadReachable (controls : Option (Direction → Option String))
    (hasPosCb : Bool) : DpadState → Prop where
  | init : DpadReachable controls hasPosCb dpadInit
  | touchStart (s : DpadState) (tid : Nat) (rectOk nearCenter : Bool)
      (touchDirs : Dirs) (h : DpadReachable controls hasPosCb s) :
      DpadReachable controls hasPosCb
        (dpadTouchStart controls hasPosCb s tid rectOk nearCenter touchDirs).1
  | timerFire (s : DpadState) (h : DpadReachable controls hasPosCb s) :
      DpadReachable controls hasPosCb (dpadTimerFire controls s).1
  | touchMove (s : DpadState) (tid : Nat) (moved15 rectOk : Bool)
      (touchDirs : Dirs) (h : DpadReachable controls hasPosCb s) :
      DpadReachable controls hasPosCb
        (dpadTouchMove controls hasPosCb s tid moved15 rectOk touchDirs).1
  | touchEnd (s : DpadState) (tid : Nat) (h : DpadReachable controls hasPosCb s) :
      DpadReachable controls hasPosCb (dpadTouchEnd controls s tid).1

/-- The inductive invariant of the `Dpad` machine: while dragging the active
set is empty, a touch is tracked and repositioning is enabled; while the drag
timer is pending a touch is tracked and repositioning is enabled. -/
def DpadInv (hasPosCb : Bool) (s : DpadState) : Prop :=
  (s.isDragging = true →
    s.dirs = Dirs.none ∧ s.activeTouch.isSome = true ∧ hasPosCb = true) ∧
  (s.timerPending = true → s.activeTouch.isSome = true ∧ hasPosCb = true)

theorem dpadInv_touchStart (controls : Option (Direction → Option String))
    (hasPosCb : Bool) (s : DpadState) (tid : Nat) (rectOk nearCenter : Bool)
    (touchDirs : Dirs) (hInv : DpadInv hasPosCb s) :
    DpadInv hasPosCb
      (dpadTouchStart controls hasPosCb s tid rectOk nearCenter touchDirs).1 := by
  obtain ⟨ih1, ih2⟩ := hInv
  unfold dpadTouchStart dpadApplyDirections
  cases hA : s.activeTouch with
  | some v => simpa using ⟨ih1, ih2⟩
  | none =>
      have hD : s.isDragging = false := by
        cases h : s.isDragging
        · rfl
        · exact absurd ((ih1 h).2.1) (by simp [hA])
      have hP : s.timerPending = false := by
        cases h : s.timerPending
        · rfl
        · exact absurd ((ih2 h).1) (by simp [hA])
      cases rectOk with
      | false => simp [DpadInv, hA, hD, hP]
      | true =>
          cases hNC : (nearCenter && hasPosCb) with
          | true =>
              have hPC : hasPosCb = true := (Bool.and_eq_true _ _ |>.mp hNC).2
              simp [DpadInv, hA, hD, hP, hNC, hPC]
          | false => simp [DpadInv, hA, hD, hP, hNC]

theorem dpadInv_timerFire (controls : Option (Direction → Option String))
    (hasPosCb : Bool) (s : DpadState) (hInv : DpadInv hasPosCb s) :
    DpadInv hasPosCb (dpadTimerFire controls s).1 := by
  obtain ⟨ih1, ih2⟩ := hInv
  unfold dpadTimerFire dpadStartDragging
  cases hP : s.timerPending with
  | false => simpa using ⟨ih1, ih2⟩
  | true =>
      obtain ⟨hT, hPC⟩ := ih2 hP
      simp [DpadInv, hT, hPC]

theorem dpadInv_touchMove (controls : Option (Direction → Option String))
    (hasPosCb : Bool) (s : DpadState) (tid : Nat) (moved15 rectOk : Bool)
    (touchDirs : Dirs) (hInv : DpadInv hasPosCb s) :
    DpadInv hasPosCb
      (dpadTouchMove controls hasPosCb s tid moved15 rectOk touchDirs).1 := by
  obtain ⟨ih1, ih2⟩ := hInv
  unfold dpadTouchMove dpadApplyDirections
  cases hT : (s.activeTouch == Option.some tid) with
  | false => simpa using ⟨ih1, ih2⟩
  | true =>
      have hTs : s.activeTouch.isSome = true := by
        cases h : s.activeTouch with
        | none => rw [h] at hT; exact absurd hT (by simp)
        | some v => simp
      cases hDP : (s.isDragging && hasPosCb) with
      | true => simpa [hT, hDP] using ⟨ih1, ih2⟩
      | false =>
          have hD : s.isDragging = false := by
            cases h : s.isDragging
            · rfl
            · have hPC := (ih1 h).2.2
              rw [h, hPC] at hDP; exact absurd hDP (by simp)
          cases moved15 with
          | true =>
              cases rectOk with
              | true => simp [DpadInv, hT, hDP, hD]
              | false => simp [DpadInv, hT, hDP, hD]
          | false =>
              cases rectOk with
              | true =>
                  simp only [hT, hDP, Bool.false_eq_true, if_false, if_true,
                    Bool.not_true]
                  refine ⟨?_, ?_⟩
                  · intro h
                    exact absurd (show s.isDragging = true from h) (by simp [hD])
                  · intro h
                    exact ih2 (show s.timerPending = true from h)
              | false =>
                  simp only [hT, hDP, Bool.false_eq_true, if_false, if_true,
                    Bool.not_true]
                  refine ⟨?_, ?_⟩
                  · intro h
                    exact absurd (show s.isDragging = true from h) (by simp [hD])
                  · intro h
                    exact ih2 (show s.timerPending = true from h)

theorem dpadInv_touchEnd (controls : Option (Direction → Option String))
    (hasPosCb : Bool) (s : DpadState) (tid : Nat) (hInv : DpadInv hasPosCb s) :
    DpadInv hasPosCb (dpadTouchEnd controls s tid).1 := by
  obtain ⟨ih1, ih2⟩ := hInv
  unfold dpadTouchEnd
  cases hT : (s.activeTouch == Option.some tid) with
  | false =>
      simp only [hT, Bool.false_eq_true, if_false]
      refine ⟨?_, ?_⟩
      · intro h
        exact ih1 (show s.isDragging = true from h)
      · intro h
        exact absurd (show false = true from h) (by simp)
  | true =>
      cases hD : s.isDragging with
      | true => simp [DpadInv, hT, hD]
      | false => simp [DpadInv, hT, hD]

/-- Every reachable `Dpad` state satisfies the invariant. -/
theorem dpadInv_reachable (controls : Option (Direction → Option String))
    (hasPosCb : Bool) (s : DpadState)
    (h : DpadReachable controls hasPosCb s) : DpadInv hasPosCb s := by
  induction h with
  | init =>
      exact ⟨fun h => absurd (show false = true from h) (by simp),
        fun h => absurd (show false = true from h) (by simp)⟩
  | touchStart s tid rectOk nearCenter touchDirs h ih =>
      exact dpadInv_touchStart controls hasPosCb s tid rectOk nearCenter touchDirs ih
  | timerFire s h ih => exact dpadInv_timerFire controls hasPosCb s ih
  | touchMove s tid moved15 rectOk touchDirs h ih =>
      exact dpadInv_touchMove controls hasPosCb s tid moved15 rectOk touchDirs ih
  | touchEnd s tid h ih => exact dpadInv_touchEnd controls hasPosCb s tid ih

/-! ## The generic virtual-button touch machine (`useTouchHandlers`)

State: `isDraggingRef`, the pending drag timer (`dragTimerRef`), whether a
touch is currently down on the button (the data model assumes one touch per
button instance), and `engaged` — whether an `onPressDown` callback has been
delivered without a matching `onRelease` (the button's view of "press still
engaged").  Fixed props: `isSystemButton`, whether `onPositionChange` is
supplied (`hasPosCb`), and whether `onPressDown` is supplied (`hasPressDown`).
Branch conditions computed from coordinates — touch within
`buttonSize * DRAG_CENTER_THRESHOLD` of the center (`nearCenter`), move beyond
`DRAG_MOVE_THRESHOLD` (`moved10`), `e.currentTarget` non-null (`targetOk`) —
enter as `Bool` inputs. -/

/-- Callback-level events emitted by a virtual button. -/
inductive BtnEv where
  | press
  | pressDown
  | release
  | posUpd
  | vibrate (pattern : List Nat)
deriving DecidableEq, Repr

structure BtnState where
  touchActive : Bool
  isDragging : Bool
  timerPending : Bool
  engaged : Bool
deriving DecidableEq, Repr

/-- Mount-time state of a virtual button. -/
def btnInit : BtnState := ⟨false, false, false, false⟩

/-- `useTouchHandlers.startDragging`: set the dragging flag, haptic pattern,
and release the press for non-system buttons. -/
def btnStartDragging (isSystem : Bool) (s : BtnState) : BtnState × List BtnEv :=
  ({ s with
      isDragging := true,
      engaged := if isSystem then s.engaged else false },
    [BtnEv.vibrate [10, 30, 10]] ++ (if isSystem then [] else [BtnEv.release]))

/-- `useTouchHandlers.handleTouchStart`: haptic tap pulse, press callback
(`onPress` for system buttons, else `onPressDown` when supplied), then arm the
350 ms drag timer when repositioning is enabled, the target element exists and
the touch is within `buttonSize * DRAG_CENTER_THRESHOLD` of the center. -/
def btnTouchStart (isSystem hasPosCb hasPressDown : Bool) (s : BtnState)
    (targetOk nearCenter : Bool) : BtnState × List BtnEv :=
  if s.touchActive then (s, [])
  else
    let pressEvs : List BtnEv :=
      if isSystem then [BtnEv.press]
      else if hasPressDown then [BtnEv.pressDown] else []
    let s1 : BtnState :=
      { s with
        touchActive := true,
        engaged := if isSystem then s.engaged
          else if hasPressDown then true else s.engaged }
    let evs := [BtnEv.vibrate [8]] ++ pressEvs
    if hasPosCb then
      if !targetOk then (s1, evs)
      else if nearCenter then ({s1 with timerPending := true}, evs)
      else (s1, evs)
    else (s1, evs)

/-- The `dragTimerRef` timeout firing: `if (!isDraggingRef.current)
startDragging(...)`. -/
def btnTimerFire (isSystem : Bool) (s : BtnState) : BtnState × List BtnEv :=
  if s.timerPending then
    if !s.isDragging then btnStartDragging isSystem {s with timerPending := false}
    else ({s with timerPending := false}, [])
  else (s, [])

/-- `useTouchHandlers.handleTouchMove`: when repositioning is enabled and not
yet dragging, a move beyond `DRAG_MOVE_THRESHOLD` clears the timer and starts
dragging immediately; then, when dragging, a position update is emitted. -/
def btnTouchMove (isSystem hasPosCb : Bool) (s : BtnState) (moved10 : Bool) :
    BtnState × List BtnEv :=
  if !s.touchActive then (s, [])
  else
    let r1 : BtnState × List BtnEv :=
      if hasPosCb && !s.isDragging && moved10 then
        btnStartDragging isSystem {s with timerPending := false}
      else (s, [])
    if r1.1.isDragging && hasPosCb then (r1.1, r1.2 ++ [BtnEv.posUpd])
    else r1

/-- `useTouchHandlers.handleTouchEnd` (and the identical
`handleTouchCancel`): clear the timer; if dragging just exit drag mode,
otherwise release non-system buttons. -/
def btnTouchEnd (isSystem : Bool) (s : BtnState) : BtnState × List BtnEv :=
  if !s.touchActive then (s, [])
  else
    let s0 : BtnState := {s with timerPending := false, touchActive := false}
    if s0.isDragging then ({s0 with isDragging := false}, [])
    else if isSystem then (s0, [])
    else ({s0 with engaged := false}, [BtnEv.release])

/-- States of the button machine reachable from the mount-time state. -/
inductive BtnReachable (isSystem hasPosCb hasPressDown : Bool) :
    BtnState → Prop where
  | init : BtnReachable isSystem hasPosCb hasPressDown btnInit
  | touchStart (s : BtnState) (targetOk nearCenter : Bool)
      (h : BtnReachable isSystem hasPosCb hasPressDown s) :
      BtnReachable isSystem hasPosCb hasPressDown
        (btnTouchStart isSystem hasPosCb hasPressDown s targetOk nearCenter).1
  | timerFire (s : BtnState) (h : BtnReachable isSystem hasPosCb hasPressDown s) :
      BtnReachable isSystem hasPosCb hasPressDown (btnTimerFire isSystem s).1
  | touchMove (s : BtnState) (moved10 : Bool)
      (h : BtnReachable isSystem hasPosCb hasPressDown s) :
      BtnReachable isSystem hasPosCb hasPressDown
        (btnTouchMove isSystem hasPosCb s moved10).1
  | touchEnd (s : BtnState) (h : BtnReachable isSystem hasPosCb hasPressDown s) :
      BtnReachable isSystem hasPosCb hasPressDown (btnTouchEnd isSystem s).1

/-- Invariant of the button machine: while dragging no press is engaged and a
touch is down; while the timer is pending a touch is down; a system button is
never `engaged`. -/
def BtnInv (isSystem : Bool) (s : BtnState) : Prop :=
  (s.isDragging = true → s.engaged = false ∧ s.touchActive = true) ∧
  (s.timerPending = true → s.touchActive = true) ∧
  (isSystem = true → s.engaged = false)

theorem btnInv_reachable (isSystem hasPosCb hasPressDown : Bool) (s : BtnState)
    (h : BtnReachable isSystem hasPosCb hasPressDown s) : BtnInv isSystem s := by
  induction h with
  | init => simp [BtnInv, btnInit]
  | touchStart s targetOk nearCenter h ih =>
      obtain ⟨ih1, ih2, ih3⟩ := ih
      unfold btnTouchStart
      cases hTA : s.touchActive with
      | true => simpa using ⟨ih1, ih2, ih3⟩
      | false =>
          have hD : s.isDragging = false := by
            cases h : s.isDragging
            · rfl
            · rw [(ih1 h).2] at hTA; cases hTA
          cases hSys : isSystem with
          | true =>
              have hE := ih3 hSys
              cases hasPosCb <;> cases targetOk <;> cases nearCenter <;>
                simp [BtnInv, hTA, hD, hE]
          | false =>
              cases hasPosCb <;> cases targetOk <;> cases nearCenter <;>
                cases hasPressDown <;> simp [BtnInv, hTA, hD]
  | timerFire s h ih =>
      obtain ⟨ih1, ih2, ih3⟩ := ih
      unfold btnTimerFire btnStartDragging
      cases hP : s.timerPending with
      | false => simpa using ⟨ih1, ih2, ih3⟩
      | true =>
          have hTA := ih2 hP
          cases hD : s.isDragging with
          | true => simp [BtnInv, hD, hTA, ih1 hD, ih3]
          | false =>
              cases hSys : isSystem with
              | true => simp [BtnInv, hD, hTA, ih3 hSys]
              | false => simp [BtnInv, hD, hTA]
  | touchMove s moved10 h ih =>
      obtain ⟨ih1, ih2, ih3⟩ := ih
      unfold btnTouchMove btnStartDragging
      cases hTA : s.touchActive with
      | false => simpa using ⟨ih1, ih2, ih3⟩
      | true =>
          cases hGo : (hasPosCb && !s.isDragging && moved10) with
          | false =>
              cases hDP : (s.isDragging && hasPosCb) <;>
                simpa [hGo, hDP] using ⟨ih1, ih2, ih3⟩
          | true =>
              have hPC : hasPosCb = true := by
                revert hGo; cases hasPosCb <;> simp
              cases hSys : isSystem with
              | true => simp [BtnInv, hGo, hPC, hTA, ih3 hSys]
              | false => simp [BtnInv, hGo, hPC, hTA]
  | touchEnd s h ih =>
      obtain ⟨ih1, ih2, ih3⟩ := ih
      unfold btnTouchEnd
      cases hTA : s.touchActive with
      | false => simpa using ⟨ih1, ih2, ih3⟩
      | true =>
          cases hD : s.isDragging with
          | true => simp [BtnInv, hTA, hD, (ih1 hD).1, ih3]
          | false =>
              cases hSys : isSystem with
              | true => simp [BtnInv, hTA, hD, ih3 hSys]
              | false => simp [BtnInv, hTA, hD]

/-! ## The `VirtualController` container

The pressed-button set (`pressedButtons`, a JS `Set` of button-type strings,
modelled as a duplicate-free `List String` in insertion order) and its
handlers.  `getButtonKeyboardCode` is abstracted to a resolved mapping
`code : String → Option String` (`getKeyboardCode` consults the optional user
mapping, then `DEFAULT_CONTROLS`, else `null`; the JS falsiness test
`if (!keyboardCode)` also rejects the empty string, kept explicit below). -/

/-- `SYSTEM_BUTTONS` in `VirtualController`. -/
def SYSTEM_BUTTONS : List String := ["start", "select", "menu"]

/-- `SYSTEM_BUTTONS.includes(buttonType)`. -/
def isSystemButton (b : String) : Bool := SYSTEM_BUTTONS.contains b

/-- `VirtualController.handlePress` (system-button tap): returns the updated
pressed set, the immediately dispatched events, and the key code whose key-up
is scheduled for 100 ms later (`Option.none` when nothing was scheduled). -/
def handlePress (isRunning : Bool) (code : String → Option String)
    (pressed : List String) (b : String) :
    List String × List OutEv × Option String :=
  if !isSystemButton b && !isRunning then (pressed, [], Option.none)
  else
    match code b with
    | Option.none => (pressed, [], Option.none)
    | Option.some c =>
        if c = "" then (pressed, [], Option.none)
        else
          ((if pressed.contains b then pressed else pressed ++ [b]),
            [OutEv.keydown c], Option.some c)

/-- The body of `handlePress`'s 100 ms `setTimeout`: dispatch the key-up and
drop the button from the pressed set.  It does not consult `isRunning`. -/
def tapReleaseFire (c : String) (pressed : List String) (b : String) :
    List String × List OutEv :=
  (pressed.erase b, [OutEv.keyup c])

/-- `VirtualController.handlePressDown` (game-button hold): requires
`isRunning`, skips system buttons and unmapped codes; the set update is a
no-op when already pressed, but the key-down is dispatched unconditionally. -/
def handlePressDown (isRunning : Bool) (code : String → Option String)
    (pressed : List String) (b : String) : List String × List OutEv :=
  if !isRunning then (pressed, [])
  else if isSystemButton b then (pressed, [])
  else
    match code b with
    | Option.none => (pressed, [])
    | Option.some c =>
        if c = "" then (pressed, [])
        else
          ((if pressed.contains b then pressed else pressed ++ [b]),
            [OutEv.keydown c])

/-- `VirtualController.handleRelease`: skips system buttons and unmapped
codes; the set update is a no-op when not pressed, but the key-up is
dispatched unconditionally. -/
def handleRelease (code : String → Option String) (pressed : List String)
    (b : String) : List String × List OutEv :=
  if isSystemButton b then (pressed, [])
  else
    match code b with
    | Option.none => (pressed, [])
    | Option.some c =>
        if c = "" then (pressed, [])
        else
          ((if pressed.contains b then pressed.erase b else pressed),
            [OutEv.keyup c])

/-- The container's release-all effect: when `isRunning` is false and buttons
are held, call `handleRelease` for every non-system pressed button (each call
reads the same snapshot of the set; only its dispatched events matter because
the effect then replaces the whole set with `new Set()`). -/
def releaseAllEffect (isRunning : Bool) (code : String → Option String)
    (pressed : List String) : List String × List OutEv :=
  if !isRunning && decide (0 < pressed.length) then
    ([],
      pressed.flatMap fun b =>
        if !isSystemButton b then (handleRelease code pressed b).2 else [])
  else (pressed, [])

/-! ## Touch geometry (over `ℝ`)

The source computes pixel distances with `Math.sqrt`/`Math.pow` and the
D-pad angle with `Math.atan2`; these are modelled over the reals. -/

open Real in
/-- JS `Math.atan2(y, x)` (the value in radians; `atan2(0, 0) = 0`). -/
noncomputable def atan2 (y x : ℝ) : ℝ :=
  if 0 < x then Real.arctan (y / x)
  else if x < 0 then
    (if 0 ≤ y then Real.arctan (y / x) + Real.pi
     else Real.arctan (y / x) - Real.pi)
  else if 0 < y then Real.pi / 2
  else if y < 0 then -(Real.pi / 2)
  else 0

/-- `Math.sqrt(Math.pow(bx - ax, 2) + Math.pow(by - ay, 2))`: the move
distance between the touch-start point and the current touch point
(`handleTouchMove` in both `Dpad` and `useTouchHandlers`), and likewise the
distance from a touch to a button's center (`handleTouchStart`). -/
noncomputable def touchDistance (x1 y1 x2 y2 : ℝ) : ℝ :=
  Real.sqrt ((x2 - x1) ^ 2 + (y2 - y1) ^ 2)

/-- The angle-range membership tests of `Dpad.getDirectionsFromTouch`
(`angle` in degrees). -/
def dirAngleCond (angle : ℝ) : Direction → Prop
  | .up => -150 ≤ angle ∧ angle ≤ -30
  | .down => 30 ≤ angle ∧ angle ≤ 150
  | .left => 120 ≤ angle ∨ angle ≤ -120
  | .right => -60 ≤ angle ∧ angle ≤ 60

/-- `Dpad.getDirectionsFromTouch` as a predicate: direction `d` is in the
computed set iff the touch is outside the dead zone (15 % of the half-width)
and the `atan2` angle, in degrees, satisfies `d`'s range test. -/
def getDirectionsFromTouch (touchX touchY rectLeft rectTop rectW rectH : ℝ)
    (d : Direction) : Prop :=
  let dx := touchX - (rectLeft + rectW / 2)
  let dy := touchY - (rectTop + rectH / 2)
  ¬(Real.sqrt (dx * dx + dy * dy) < rectW / 2 * 0.15) ∧
    dirAngleCond (atan2 dy dx * (180 / Real.pi)) d

/-! ## Drag position arithmetic (over `ℚ`)

The drag-move position computation and clamping use only field operations and
`Math.min`/`Math.max`, so they are modelled over `ℚ`. -/

/-- `(buttonSize / 2 / Math.min(containerWidth, containerHeight)) * 100`. -/
def dragMargin (buttonSize w h : ℚ) : ℚ := buttonSize / 2 / min w h * 100

/-- `Math.max(margin, Math.min(100 - margin, v))`. -/
def clampPercent (margin v : ℚ) : ℚ := max margin (min (100 - margin) v)

/-- The dragging branch of `useTouchHandlers.handleTouchMove`: position from
the stored touch-to-element offset, as container percentages, clamped. -/
def buttonDragPosition (buttonSize w h offX offY tx ty : ℚ) : ℚ × ℚ :=
  let newX := tx - offX
  let newY := ty - offY
  let newXPercent := newX / w * 100
  let newYPercent := newY / h * 100
  let margin := dragMargin buttonSize w h
  (clampPercent margin newXPercent, clampPercent margin newYPercent)

/-- The dragging branch of `Dpad.handleTouchMove`: position from the pad
position and touch point recorded at drag start, plus the touch delta as
container percentages, clamped (`size` is the pad size). -/
def dpadDragPosition (size w h startX startY startTouchX startTouchY tx ty : ℚ) :
    ℚ × ℚ :=
  let deltaX := tx - startTouchX
  let deltaY := ty - startTouchY
  let newXPercent := startX + deltaX / w * 100
  let newYPercent := startY + deltaY / h * 100
  let margin := dragMargin size w h
  (clampPercent margin newXPercent, clampPercent margin newYPercent)

/-! ## Counting key events in a direction-set update -/

theorem count_keydown_map_keyup (code : Direction → String) (c : String)
    (l : List Direction) :
    (l.map fun d => OutEv.keyup (code d)).count (OutEv.keydown c) = 0 := by
  rw [List.count_eq_zero]
  simp

theorem count_keyup_flatMap_keydown (code : Direction → String) (c : String)
    (l : List Direction) :
    (l.flatMap fun d => [OutEv.vibrate [5], OutEv.keydown (code d)]).count
      (OutEv.keyup c) = 0 := by
  rw [List.count_eq_zero]
  simp

theorem count_keyup_map_keyup (code : Direction → String) (c : String)
    (l : List Direction) :
    (l.map fun d => OutEv.keyup (code d)).count (OutEv.keyup c) =
      l.countP fun d => code d == c := by
  rw [List.count_eq_countP, List.countP_map]
  apply List.countP_congr
  intro d _
  simp [Function.comp]

theorem count_keydown_flatMap_keydown (code : Direction → String) (c : String)
    (l : List Direction) :
    (l.flatMap fun d => [OutEv.vibrate [5], OutEv.keydown (code d)]).count
      (OutEv.keydown c) = l.countP fun d => code d == c := by
  induction l with
  | nil => simp
  | cons a t ih =>
      rw [List.flatMap_cons, List.count_append, ih, List.countP_cons]
      simp [List.count_cons]
      omega

/-- **C1.** On every recomputation of the D-pad's active-direction set
(`updateDirections`), assuming every direction's mapped key code is non-empty
and the four codes are pairwise distinct (as the default arrow mapping is),
the emitted keyboard events are exactly the set difference: direction `d`'s
key-up appears exactly once when `d` leaves the active set and never
otherwise, and its key-down appears exactly once when `d` enters and never
otherwise — in particular a direction present in both sets contributes no
event, so continuous motion never duplicates a key-down. -/
theorem dpad_update_emits_exact_diff
    (controls : Option (Direction → Option String))
    (hne : ∀ d, dpadKeyCode controls d ≠ "")
    (hinj : ∀ a b : Direction,
      dpadKeyCode controls a = dpadKeyCode controls b → a = b)
    (prev nw : Dirs) (d : Direction) :
    ((updateDirEvents (dpadKeyCode controls) prev nw).count
        (OutEv.keyup (dpadKeyCode controls d)) =
      if (prev.has d && !nw.has d) = true then 1 else 0) ∧
    ((updateDirEvents (dpadKeyCode controls) prev nw).count
        (OutEv.keydown (dpadKeyCode controls d)) =
      if (nw.has d && !prev.has d) = true then 1 else 0) := by
  have hbeq : ∀ a b : Direction, a ≠ b →
      (dpadKeyCode controls a == dpadKeyCode controls b) = false := by
    intro a b hab
    rw [beq_eq_false_iff_ne]
    intro h
    exact hab (hinj a b h)
  have hbne : ∀ a : Direction, (dpadKeyCode controls a == "") = false := by
    intro a
    rw [beq_eq_false_iff_ne]
    exact hne a
  unfold updateDirEvents
  rw [List.count_append, List.count_append,
    count_keydown_map_keyup, count_keyup_flatMap_keydown,
    count_keyup_map_keyup, count_keydown_flatMap_keydown,
    List.countP_filter, List.countP_filter]
  constructor
  · cases d <;> simp [Direction.all, List.countP_cons, hbne, hbeq, Dirs.has]
  · cases d <;> simp [Direction.all, List.countP_cons, hbne, hbeq, Dirs.has]

/-- Witness for C1 at a concrete transition: moving from `{up, right}` to
`{up, down}` with the default arrow mapping emits exactly one key-up for
`ArrowRight`, exactly one key-down for `ArrowDown`, and no key-down for the
direction `up` that stays active. -/
theorem dpad_update_emits_exact_diff_witness :
    (updateDirEvents (dpadKeyCode Option.none) ⟨true, false, false, true⟩
        ⟨true, true, false, false⟩).count (OutEv.keyup "ArrowRight") = 1 ∧
    (updateDirEvents (dpadKeyCode Option.none) ⟨true, false, false, true⟩
        ⟨true, true, false, false⟩).count (OutEv.keydown "ArrowDown") = 1 ∧
    (updateDirEvents (dpadKeyCode Option.none) ⟨true, false, false, true⟩
        ⟨true, true, false, false⟩).count (OutEv.keydown "ArrowUp") = 0 ∧
    (updateDirEvents (dpadKeyCode Option.none) ⟨true, false, false, true⟩
        ⟨true, true, false, false⟩).count (OutEv.keyup "ArrowUp") = 0 := by
  have h := dpad_update_emits_exact_diff Option.none (by decide) (by decide)
    ⟨true, false, false, true⟩ ⟨true, true, false, false⟩
  refine ⟨?_, ?_, ?_, ?_⟩
  · simpa [dpadKeyCode, Dirs.has] using (h .right).1
  · simpa [dpadKeyCode, Dirs.has] using (h .down).2
  · simpa [dpadKeyCode, Dirs.has] using (h .up).2
  · simpa [dpadKeyCode, Dirs.has] using (h .up).1

/-- **C2.** A drag session and an engaged input are mutually exclusive:
(i) `Dpad.startDragging` emits a key-up for every direction in the active set
(those with a mapped code), empties the set, and emits no drag position
update itself; (ii) in every reachable `Dpad` state, dragging implies the
active-direction set is empty (so all position updates happen with no
direction engaged); (iii) the generic button's `startDragging` invokes the
release callback for a non-system button and clears its engaged press;
(iv) in every reachable button state, dragging implies no press is engaged. -/
theorem drag_excludes_engaged_input :
    (∀ (controls : Option (Direction → Option String)) (s : DpadState),
      (dpadStartDragging controls s).1.dirs = Dirs.none ∧
      (dpadStartDragging controls s).1.isDragging = true ∧
      OutEv.posUpd ∉ (dpadStartDragging controls s).2 ∧
      ∀ d, s.dirs.has d = true → dpadKeyCode controls d ≠ "" →
        OutEv.keyup (dpadKeyCode controls d) ∈ (dpadStartDragging controls s).2) ∧
    (∀ (controls : Option (Direction → Option String)) (hasPosCb : Bool)
      (s : DpadState), DpadReachable controls hasPosCb s →
      s.isDragging = true → s.dirs = Dirs.none) ∧
    (∀ (s : BtnState),
      (btnStartDragging false s).1.engaged = false ∧
      (btnStartDragging false s).1.isDragging = true ∧
      BtnEv.release ∈ (btnStartDragging false s).2) ∧
    (∀ (isSystem hasPosCb hasPressDown : Bool) (s : BtnState),
      BtnReachable isSystem hasPosCb hasPressDown s →
      s.isDragging = true → s.engaged = false) := by
  refine ⟨?_, ?_, ?_, ?_⟩
  · intro controls s
    refine ⟨rfl, rfl, by simp [dpadStartDragging], ?_⟩
    intro d hd hc
    unfold dpadStartDragging
    refine List.mem_append_left _ ?_
    refine List.mem_map.mpr ⟨d, List.mem_filter.mpr ⟨?_, ?_⟩, rfl⟩
    · cases d <;> simp [Direction.all]
    · simp [hd, beq_eq_false_iff_ne, hc]
  · intro controls hasPosCb s h hd
    exact ((dpadInv_reachable controls hasPosCb s h).1 hd).1
  · intro s
    exact ⟨rfl, rfl, by simp [btnStartDragging]⟩
  · intro isSystem hasPosCb hasPressDown s h hd
    exact ((btnInv_reachable isSystem hasPosCb hasPressDown s h).1 hd).1

/-- Witness for C2 on concrete traces: entering drag mode with direction `up`
active emits its `ArrowUp` key-up and empties the set; a D-pad state reached
by a center touch-start followed by the timer firing is dragging with no
active direction; the analogous button trace ends dragging with no engaged
press, and the drag entry emitted the release callback. -/
theorem drag_excludes_engaged_input_witness :
    (dpadStartDragging Option.none
        ⟨Option.some 0, ⟨true, false, false, false⟩, false, true⟩).1.dirs =
      Dirs.none ∧
    OutEv.keyup "ArrowUp" ∈ (dpadStartDragging Option.none
        ⟨Option.some 0, ⟨true, false, false, false⟩, false, true⟩).2 ∧
    ((dpadTimerFire Option.none
        (dpadTouchStart Option.none true dpadInit 0 true true
          Dirs.none).1).1.isDragging = true ∧
      (dpadTimerFire Option.none
        (dpadTouchStart Option.none true dpadInit 0 true true
          Dirs.none).1).1.dirs = Dirs.none) ∧
    (BtnEv.release ∈ (btnStartDragging false
        ⟨true, false, true, true⟩).2) ∧
    ((btnTimerFire false
        (btnTouchStart false true true btnInit true true).1).1.isDragging = true ∧
      (btnTimerFire false
        (btnTouchStart false true true btnInit true true).1).1.engaged = false) := by
  obtain ⟨h1, h2, h3, h4⟩ := drag_excludes_engaged_input
  refine ⟨(h1 Option.none _).1, ?_, ⟨by decide, ?_⟩, (h3 _).2.2, ⟨by decide, ?_⟩⟩
  · exact (h1 Option.none ⟨Option.some 0, ⟨true, false, false, false⟩, false,
      true⟩).2.2.2 Direction.up (by decide) (by decide)
  · exact h2 Option.none true _
      (DpadReachable.timerFire _
        (DpadReachable.touchStart dpadInit 0 true true Dirs.none
          DpadReachable.init))
      (by decide)
  · exact h4 false true true _
      (BtnReachable.timerFire _
        (BtnReachable.touchStart btnInit true true BtnReachable.init))
      (by decide)

/-- **C5.** When `isRunning` turns false with buttons held, the release-all
effect empties the pressed set and dispatches a key-up for the mapped code of
every held non-system button; independently, the key code scheduled by a
system button's `handlePress` tap timer is the same for any running state,
and the timer body dispatches that key-up unconditionally
(`tapReleaseFire` takes no running flag). -/
theorem running_false_releases_game_buttons
    (code : String → Option String) (pressed : List String)
    (hne : pressed ≠ []) :
    (releaseAllEffect false code pressed).1 = [] ∧
    (∀ b ∈ pressed, isSystemButton b = false → ∀ c, code b = Option.some c →
      c ≠ "" → OutEv.keyup c ∈ (releaseAllEffect false code pressed).2) ∧
    (∀ (running : Bool) (b : String) (c : String) (pr : List String),
      isSystemButton b = true → code b = Option.some c → c ≠ "" →
      (handlePress running code pr b).2.2 = Option.some c ∧
      tapReleaseFire c pr b = (pr.erase b, [OutEv.keyup c])) := by
  have hlen : (!false && decide (0 < pressed.length)) = true := by
    simp [List.length_pos, hne]
  refine ⟨?_, ?_, ?_⟩
  · unfold releaseAllEffect
    rw [if_pos hlen]
  · intro b hb hsys c hc hcne
    unfold releaseAllEffect
    rw [if_pos hlen]
    refine List.mem_flatMap.mpr ⟨b, hb, ?_⟩
    simp only [hsys, Bool.not_false, if_true]
    unfold handleRelease
    rw [if_neg (by simp [hsys]), hc]
    simp [hcne]
  · intro running b c pr hsys hc hcne
    refine ⟨?_, rfl⟩
    unfold handlePress
    rw [if_neg (by simp [hsys]), hc]
    simp [hcne]

/-- Witness for C5: with `a` (mapped to `KeyZ`) and `start` (mapped to
`Enter`) held when the game stops, the effect clears the set and emits the
key-up for `KeyZ`; `start`'s tap timer payload is `Enter` whether or not the
game is running, and firing it dispatches the `Enter` key-up. -/
theorem running_false_releases_game_buttons_witness :
    (releaseAllEffect false
        (fun b => if b = "a" then Option.some "KeyZ"
          else if b = "start" then Option.some "Enter" else Option.none)
        ["a", "start"]).1 = [] ∧
    OutEv.keyup "KeyZ" ∈ (releaseAllEffect false
        (fun b => if b = "a" then Option.some "KeyZ"
          else if b = "start" then Option.some "Enter" else Option.none)
        ["a", "start"]).2 ∧
    (handlePress false
        (fun b => if b = "a" then Option.some "KeyZ"
          else if b = "start" then Option.some "Enter" else Option.none)
        [] "start").2.2 = Option.some "Enter" ∧
    (handlePress true
        (fun b => if b = "a" then Option.some "KeyZ"
          else if b = "start" then Option.some "Enter" else Option.none)
        [] "start").2.2 = Option.some "Enter" ∧
    tapReleaseFire "Enter" ["start"] "start" = ([], [OutEv.keyup "Enter"]) := by
  have h := running_false_releases_game_buttons
    (fun b => if b = "a" then Option.some "KeyZ"
      else if b = "start" then Option.some "Enter" else Option.none)
    ["a", "start"] (by decide)
  refine ⟨h.1, ?_, ?_, ?_, ?_⟩
  · exact h.2.1 "a" (by decide) (by decide) "KeyZ" (by decide) (by decide)
  · exact (h.2.2 false "start" "Enter" [] (by decide) (by decide) (by decide)).1
  · exact (h.2.2 true "start" "Enter" [] (by decide) (by decide) (by decide)).1
  · have := (h.2.2 true "start" "Enter" ["start"] (by decide) (by decide)
      (by decide)).2
    simpa using this

/-- **C6 counterexample.** The claim says invoking the press-down handler for
a game button already in the pressed set "dispatches no additional keyboard
event"; but with `a` mapped to `KeyZ`, already pressed and the game running,
`handlePressDown` leaves the set unchanged yet dispatches another key-down —
and `handleRelease` for an un-pressed button likewise dispatches a key-up. -/
theorem pressed_set_noop_counterexample :
    (handlePressDown true (fun b => if b = "a" then Option.some "KeyZ"
        else Option.none) ["a"] "a").1 = ["a"] ∧
    (handlePressDown true (fun b => if b = "a" then Option.some "KeyZ"
        else Option.none) ["a"] "a").2 = [OutEv.keydown "KeyZ"] ∧
    (handlePressDown true (fun b => if b = "a" then Option.some "KeyZ"
        else Option.none) ["a"] "a").2 ≠ [] ∧
    (handleRelease (fun b => if b = "a" then Option.some "KeyZ"
        else Option.none) [] "a").1 = [] ∧
    (handleRelease (fun b => if b = "a" then Option.some "KeyZ"
        else Option.none) [] "a").2 = [OutEv.keyup "KeyZ"] := by
  decide

/-- **C6 (amended).** The pressed-set *state* update is idempotent — pressing
an already-pressed game button or releasing an un-pressed one leaves the set
unchanged — but the keyboard event is dispatched on every invocation: the
key-down / key-up is emitted again even when the set does not change. -/
theorem pressed_set_noop_amended (code : String → Option String)
    (pressed : List String) (b : String) (c : String)
    (hsys : isSystemButton b = false) (hc : code b = Option.some c)
    (hcne : c ≠ "") :
    (pressed.contains b = true →
      handlePressDown true code pressed b = (pressed, [OutEv.keydown c])) ∧
    (pressed.contains b = false →
      handleRelease code pressed b = (pressed, [OutEv.keyup c])) := by
  constructor
  · intro hmem
    have hm : b ∈ pressed := by simpa using hmem
    unfold handlePressDown
    rw [if_neg (by simp), if_neg (by simp [hsys]), hc]
    simp [hcne, hm]
  · intro hmem
    have hm : b ∉ pressed := by simpa using hmem
    unfold handleRelease
    rw [if_neg (by simp [hsys]), hc]
    simp [hcne, hm]

/-- Witness for the amended C6 at the counterexample's inputs. -/
theorem pressed_set_noop_amended_witness :
    handlePressDown true (fun b => if b = "a" then Option.some "KeyZ"
        else Option.none) ["a"] "a" = (["a"], [OutEv.keydown "KeyZ"]) ∧
    handleRelease (fun b => if b = "a" then Option.some "KeyZ"
        else Option.none) [] "a" = ([], [OutEv.keyup "KeyZ"]) := by
  have h := pressed_set_noop_amended
    (fun b => if b = "a" then Option.some "KeyZ" else Option.none)
    ["a"] "a" "KeyZ" (by decide) (by decide) (by decide)
  have h2 := pressed_set_noop_amended
    (fun b => if b = "a" then Option.some "KeyZ" else Option.none)
    [] "a" "KeyZ" (by decide) (by decide) (by decide)
  exact ⟨h.1 (by decide), h2.2 (by decide)⟩

/-- **C4 counterexample.** The claim asserts the clamped drag position lies in
`[margin, 100 - margin]` "for all positive container dimensions"; but with a
180 px button in a 10×10 container the margin is 900, the clamp returns 900,
and `900 ≤ 100 - 900` fails — the upper bound only holds when the button fits
in the container (`margin ≤ 50`). -/
theorem drag_clamp_bounds_counterexample :
    dragMargin 180 10 10 = 900 ∧
    (buttonDragPosition 180 10 10 0 0 5 5).1 = 900 ∧
    ¬((buttonDragPosition 180 10 10 0 0 5 5).1 ≤
        100 - dragMargin 180 10 10) := by
  refine ⟨?_, ?_, ?_⟩ <;> norm_num [buttonDragPosition, dragMargin, clampPercent]

theorem dragMargin_le_fifty (size w h : ℚ) (hw : 0 < w) (hh : 0 < h)
    (hs : size ≤ min w h) : dragMargin size w h ≤ 50 := by
  have hmin : 0 < min w h := lt_min hw hh
  unfold dragMargin
  rw [div_div, div_mul_eq_mul_div, div_le_iff (by positivity)]
  nlinarith [min_le_left w h, min_le_right w h]

theorem clampPercent_bounds (margin v : ℚ) (hm : margin ≤ 50) :
    margin ≤ clampPercent margin v ∧ clampPercent margin v ≤ 100 - margin := by
  refine ⟨le_max_left _ _, max_le (by linarith) (min_le_left _ _)⟩

/-- **C4 (amended).** Provided the button (or pad) fits inside the container —
`buttonSize ≤ min(containerWidth, containerHeight)`, equivalently
`margin ≤ 50` — every drag position reported by either the generic button's or
the D-pad's touch-move handler satisfies `margin ≤ x ≤ 100 - margin` and
`margin ≤ y ≤ 100 - margin`, for every touch coordinate. -/
theorem drag_clamp_bounds_amended (size w h offX offY tx ty
    startX startY stX stY : ℚ) (hw : 0 < w) (hh : 0 < h)
    (hs : size ≤ min w h) :
    (dragMargin size w h ≤ (buttonDragPosition size w h offX offY tx ty).1 ∧
      (buttonDragPosition size w h offX offY tx ty).1 ≤
        100 - dragMargin size w h) ∧
    (dragMargin size w h ≤ (buttonDragPosition size w h offX offY tx ty).2 ∧
      (buttonDragPosition size w h offX offY tx ty).2 ≤
        100 - dragMargin size w h) ∧
    (dragMargin size w h ≤
        (dpadDragPosition size w h startX startY stX stY tx ty).1 ∧
      (dpadDragPosition size w h startX startY stX stY tx ty).1 ≤
        100 - dragMargin size w h) ∧
    (dragMargin size w h ≤
        (dpadDragPosition size w h startX startY stX stY tx ty).2 ∧
      (dpadDragPosition size w h startX startY stX stY tx ty).2 ≤
        100 - dragMargin size w h) := by
  have hm := dragMargin_le_fifty size w h hw hh hs
  exact ⟨clampPercent_bounds _ _ hm, clampPercent_bounds _ _ hm,
    clampPercent_bounds _ _ hm, clampPercent_bounds _ _ hm⟩

/-- Witness for the amended C4: a 100 px button in a 400×200 container has
margin 25, and a drag to an off-screen touch coordinate is clamped into
`[25, 75]`. -/
theorem drag_clamp_bounds_amended_witness :
    dragMargin 100 400 200 = 25 ∧
    (buttonDragPosition 100 400 200 0 0 4000 (-50)).1 = 75 ∧
    (buttonDragPosition 100 400 200 0 0 4000 (-50)).2 = 25 ∧
    25 ≤ (dpadDragPosition 100 400 200 50 50 0 0 4000 (-50)).1 ∧
    (dpadDragPosition 100 400 200 50 50 0 0 4000 (-50)).1 ≤ 75 := by
  have h := drag_clamp_bounds_amended 100 400 200 0 0 4000 (-50) 50 50 0 0
    (by norm_num) (by norm_num) (by norm_num)
  refine ⟨by norm_num [dragMargin], ?_, ?_, ?_, ?_⟩
  · norm_num [buttonDragPosition, dragMargin, clampPercent]
  · norm_num [buttonDragPosition, dragMargin, clampPercent]
  · have := h.2.2.1.1
    norm_num [dragMargin, min_def] at this
    exact this
  · have := h.2.2.1.2
    norm_num [dragMargin, min_def] at this
    exact this

/-- **C9 counterexample.** The claim says a code with a leading "Key" prefix
maps to the code with that prefix stripped; but `getKeyName "KeyA"` is
`"a"` — the source also lowercases the remainder — not the stripped `"A"`. -/
theorem key_name_derivation_counterexample :
    getKeyName "KeyA" = "a" ∧ claimedKeyName "KeyA" = "A" ∧
    getKeyName "KeyA" ≠ claimedKeyName "KeyA" := by
  decide

/-- **C9 (amended).** The derived key name is: the code with a leading "Key"
prefix stripped **and the remainder lowercased** when present; else the code
with a leading "Arrow" prefix stripped; else "Enter" for "Enter"; else
"Shift" for "ShiftLeft"/"ShiftRight"; else the code unchanged. -/
theorem key_name_derivation_amended (code : String) :
    (strStartsWith code "Key" = true →
      getKeyName code = strToLower (strDrop code 3)) ∧
    (strStartsWith code "Key" = false → strStartsWith code "Arrow" = true →
      getKeyName code = strDrop code 5) ∧
    (strStartsWith code "Key" = false → strStartsWith code "Arrow" = false →
      code = "Enter" → getKeyName code = "Enter") ∧
    (strStartsWith code "Key" = false → strStartsWith code "Arrow" = false →
      code = "ShiftLeft" ∨ code = "ShiftRight" → getKeyName code = "Shift") ∧
    (strStartsWith code "Key" = false → strStartsWith code "Arrow" = false →
      code ≠ "Enter" → code ≠ "ShiftLeft" → code ≠ "ShiftRight" →
      getKeyName code = code) := by
  refine ⟨?_, ?_, ?_, ?_, ?_⟩
  · intro h1
    simp [getKeyName, h1]
  · intro h1 h2
    simp [getKeyName, h1, h2]
  · intro h1 h2 h3
    subst h3
    decide
  · intro h1 h2 h3
    rcases h3 with h3 | h3 <;> subst h3 <;> decide
  · intro h1 h2 h3 h4 h5
    simp [getKeyName, h1, h2, h3, h4, h5]

/-- Witness for the amended C9 across all five derivation cases. -/
theorem key_name_derivation_amended_witness :
    getKeyName "KeyB" = "b" ∧ getKeyName "ArrowDown" = "Down" ∧
    getKeyName "Enter" = "Enter" ∧ getKeyName "ShiftLeft" = "Shift" ∧
    getKeyName "ShiftRight" = "Shift" ∧ getKeyName "Space" = "Space" := by
  refine ⟨?_, ?_, ?_, ?_, ?_, ?_⟩
  · have h := (key_name_derivation_amended "KeyB").1 (by decide)
    simpa using h
  · have h := (key_name_derivation_amended "ArrowDown").2.1 (by decide) (by decide)
    simpa using h
  · exact (key_name_derivation_amended "Enter").2.2.1 (by decide) (by decide) rfl
  · exact (key_name_derivation_amended "ShiftLeft").2.2.2.1 (by decide)
      (by decide) (Or.inl rfl)
  · exact (key_name_derivation_amended "ShiftRight").2.2.2.1 (by decide)
      (by decide) (Or.inr rfl)
  · exact (key_name_derivation_amended "Space").2.2.2.2 (by decide) (by decide)
      (by decide) (by decide) (by decide)

/-! ## The D-pad direction computation (C3) -/

theorem atan2_bounds (y x : ℝ) : -Real.pi < atan2 y x ∧ atan2 y x ≤ Real.pi := by
  have hpi := Real.pi_pos
  unfold atan2
  split_ifs with h1 h2 h3 h4 h5
  · exact ⟨by nlinarith [Real.neg_pi_div_two_lt_arctan (y / x)],
      by nlinarith [Real.arctan_lt_pi_div_two (y / x)]⟩
  · have hyx : y / x ≤ 0 :=
      div_nonpos_iff.mpr (Or.inl ⟨h3, le_of_lt h2⟩)
    have harc : Real.arctan (y / x) ≤ 0 := by
      have := Real.arctan_strictMono.monotone hyx
      rwa [Real.arctan_zero] at this
    exact ⟨by nlinarith [Real.neg_pi_div_two_lt_arctan (y / x)],
      by nlinarith⟩
  · have hyx : 0 < y / x := div_pos_iff.mpr (Or.inr ⟨by linarith [lt_of_not_le h3], h2⟩)
    have harc : 0 < Real.arctan (y / x) := by
      have := Real.arctan_strictMono hyx
      rwa [Real.arctan_zero] at this
    exact ⟨by nlinarith, by nlinarith [Real.arctan_lt_pi_div_two (y / x)]⟩
  · exact ⟨by nlinarith, by nlinarith⟩
  · exact ⟨by nlinarith, by nlinarith⟩
  · exact ⟨by linarith, by linarith⟩

theorem angleDeg_bounds (y x : ℝ) :
    -180 < atan2 y x * (180 / Real.pi) ∧ atan2 y x * (180 / Real.pi) ≤ 180 := by
  have hpi := Real.pi_pos
  have hb := atan2_bounds y x
  have hd : 0 < 180 / Real.pi := by positivity
  have h1 : Real.pi * (180 / Real.pi) = 180 := by
    field_simp
  constructor
  · have := mul_lt_mul_of_pos_right hb.1 hd
    have h2 : -Real.pi * (180 / Real.pi) = -180 := by
      field_simp
      ring
    linarith
  · have := mul_le_mul_of_nonneg_right hb.2 (le_of_lt hd)
    linarith

theorem updateDirEvents_empty_empty (code : Direction → String) :
    updateDirEvents code Dirs.none Dirs.none = [] := by
  simp [updateDirEvents, Direction.all, Dirs.none, Dirs.has]

/-- **C3.** The D-pad direction computation: inside the dead zone (distance
below 15 % of the half-width) no direction is active; a touch at the exact
center of a pad of positive width is in the dead zone, so the computed set is
empty and feeding it to the diff routine dispatches no keyboard event; and
outside the dead zone, with the angle computed by `atan2` in degrees, `up` is
active iff the angle is in `[-150, -30]`, `down` iff in `[30, 150]`, `left`
iff in `[120, 180] ∪ [-180, -120]`, and `right` iff in `[-60, 60]` (the
interval bounds at ±180 being equivalent to the source's open-ended tests
because the angle always lies in `(-180, 180]`). -/
theorem dpad_direction_ranges (tx ty rl rt rw rh : ℝ) :
    (Real.sqrt ((tx - (rl + rw / 2)) * (tx - (rl + rw / 2)) +
          (ty - (rt + rh / 2)) * (ty - (rt + rh / 2))) < rw / 2 * 0.15 →
      ∀ d, ¬getDirectionsFromTouch tx ty rl rt rw rh d) ∧
    (0 < rw → tx = rl + rw / 2 → ty = rt + rh / 2 →
      (∀ d, ¬getDirectionsFromTouch tx ty rl rt rw rh d) ∧
      (∀ (code : Direction → String) (b : Dirs),
        (∀ d, b.has d = true ↔ getDirectionsFromTouch tx ty rl rt rw rh d) →
        updateDirEvents code Dirs.none b = [])) ∧
    (¬(Real.sqrt ((tx - (rl + rw / 2)) * (tx - (rl + rw / 2)) +
          (ty - (rt + rh / 2)) * (ty - (rt + rh / 2))) < rw / 2 * 0.15) →
      ((getDirectionsFromTouch tx ty rl rt rw rh .up ↔
          (-150 ≤ atan2 (ty - (rt + rh / 2)) (tx - (rl + rw / 2)) *
              (180 / Real.pi) ∧
            atan2 (ty - (rt + rh / 2)) (tx - (rl + rw / 2)) *
              (180 / Real.pi) ≤ -30)) ∧
        (getDirectionsFromTouch tx ty rl rt rw rh .down ↔
          (30 ≤ atan2 (ty - (rt + rh / 2)) (tx - (rl + rw / 2)) *
              (180 / Real.pi) ∧
            atan2 (ty - (rt + rh / 2)) (tx - (rl + rw / 2)) *
              (180 / Real.pi) ≤ 150)) ∧
        (getDirectionsFromTouch tx ty rl rt rw rh .left ↔
          ((120 ≤ atan2 (ty - (rt + rh / 2)) (tx - (rl + rw / 2)) *
                (180 / Real.pi) ∧
              atan2 (ty - (rt + rh / 2)) (tx - (rl + rw / 2)) *
                (180 / Real.pi) ≤ 180) ∨
            (-180 ≤ atan2 (ty - (rt + rh / 2)) (tx - (rl + rw / 2)) *
                (180 / Real.pi) ∧
              atan2 (ty - (rt + rh / 2)) (tx - (rl + rw / 2)) *
                (180 / Real.pi) ≤ -120))) ∧
        (getDirectionsFromTouch tx ty rl rt rw rh .right ↔
          (-60 ≤ atan2 (ty - (rt + rh / 2)) (tx - (rl + rw / 2)) *
              (180 / Real.pi) ∧
            atan2 (ty - (rt + rh / 2)) (tx - (rl + rw / 2)) *
              (180 / Real.pi) ≤ 60)))) := by
  have hdead : ∀ d, getDirectionsFromTouch tx ty rl rt rw rh d →
      ¬(Real.sqrt ((tx - (rl + rw / 2)) * (tx - (rl + rw / 2)) +
        (ty - (rt + rh / 2)) * (ty - (rt + rh / 2))) < rw / 2 * 0.15) := by
    intro d hd
    exact hd.1
  refine ⟨?_, ?_, ?_⟩
  · intro hlt d hd
    exact hdead d hd hlt
  · intro hw hx hy
    have hzero : Real.sqrt ((tx - (rl + rw / 2)) * (tx - (rl + rw / 2)) +
        (ty - (rt + rh / 2)) * (ty - (rt + rh / 2))) = 0 := by
      rw [hx, hy]
      simp
    have hlt : Real.sqrt ((tx - (rl + rw / 2)) * (tx - (rl + rw / 2)) +
        (ty - (rt + rh / 2)) * (ty - (rt + rh / 2))) < rw / 2 * 0.15 := by
      rw [hzero]
      positivity
    have hempty : ∀ d, ¬getDirectionsFromTouch tx ty rl rt rw rh d :=
      fun d hd => hdead d hd hlt
    refine ⟨hempty, ?_⟩
    intro code b hb
    have hbn : b = Dirs.none := by
      obtain ⟨bu, bd, bl, br⟩ := b
      have h1 : bu = false := by
        cases h : bu
        · rfl
        · exact absurd ((hb .up).mp h) (hempty .up)
      have h2 : bd = false := by
        cases h : bd
        · rfl
        · exact absurd ((hb .down).mp h) (hempty .down)
      have h3 : bl = false := by
        cases h : bl
        · rfl
        · exact absurd ((hb .left).mp h) (hempty .left)
      have h4 : br = false := by
        cases h : br
        · rfl
        · exact absurd ((hb .right).mp h) (hempty .right)
      rw [h1, h2, h3, h4]
      rfl
    rw [hbn]
    exact updateDirEvents_empty_empty code
  · intro hge
    have hang := angleDeg_bounds (ty - (rt + rh / 2)) (tx - (rl + rw / 2))
    refine ⟨?_, ?_, ?_, ?_⟩
    · exact ⟨fun hd => hd.2, fun hc => ⟨hge, hc⟩⟩
    · exact ⟨fun hd => hd.2, fun hc => ⟨hge, hc⟩⟩
    · constructor
      · intro hd
        rcases hd.2 with hc | hc
        · exact Or.inl ⟨hc, hang.2⟩
        · exact Or.inr ⟨by linarith [hang.1], hc⟩
      · intro hc
        refine ⟨hge, ?_⟩
        rcases hc with hc | hc
        · exact Or.inl hc.1
        · exact Or.inr hc.2
    · exact ⟨fun hd => hd.2, fun hc => ⟨hge, hc⟩⟩

/-- Witness for C3 at the exact center of a 100×100 pad at the origin: the
computed set is empty and the diff routine emits nothing (for the default
arrow mapping and the all-false membership vector). -/
theorem dpad_direction_ranges_witness :
    (¬getDirectionsFromTouch 50 50 0 0 100 100 .up ∧
      ¬getDirectionsFromTouch 50 50 0 0 100 100 .down ∧
      ¬getDirectionsFromTouch 50 50 0 0 100 100 .left ∧
      ¬getDirectionsFromTouch 50 50 0 0 100 100 .right) ∧
    updateDirEvents (dpadKeyCode Option.none) Dirs.none Dirs.none = [] := by
  have h := (dpad_direction_ranges 50 50 0 0 100 100).2.1 (by norm_num)
    (by norm_num) (by norm_num)
  refine ⟨⟨h.1 .up, h.1 .down, h.1 .left, h.1 .right⟩, ?_⟩
  refine h.2 (dpadKeyCode Option.none) Dirs.none ?_
  intro d
  constructor
  · intro hfalse
    exact absurd hfalse (by cases d <;> simp [Dirs.none, Dirs.has])
  · intro hd
    exact absurd hd (h.1 d)

/-! ## Drag-arming geometry and move-threshold behavior (C7, C8, C10) -/

theorem touchDistance_eval (x1 y1 x2 y2 r : ℝ) (hr : 0 ≤ r)
    (h : (x2 - x1) ^ 2 + (y2 - y1) ^ 2 = r ^ 2) :
    touchDistance x1 y1 x2 y2 = r := by
  unfold touchDistance
  rw [h, Real.sqrt_sq hr]

/-- The distance from a touch to the center of a button's bounding rectangle
(`handleTouchStart` in `useTouchHandlers`, and the analogous check in
`Dpad.handleTouchStart`). -/
noncomputable def buttonCenterDistance (tx ty rl rt rw rh : ℝ) : ℝ :=
  touchDistance (rl + rw / 2) (rt + rh / 2) tx ty

/-- The source's drag-arming condition on a generic button: a position-change
callback is configured, the target element exists, and the touch is within
`buttonSize * DRAG_CENTER_THRESHOLD` (40 % of the SIZE) of the center. -/
def dragTimerArmed (hasPosCb targetOk : Bool) (tx ty rl rt rw rh size : ℝ) :
    Prop :=
  hasPosCb = true ∧ targetOk = true ∧
    buttonCenterDistance tx ty rl rt rw rh < size * 0.4

/-- **C7 counterexample.** The claim limits arming to touches "within 40 % of
the button's radius"; on a 100 px button that would be distance < 20, yet a
touch 30 px from the center (60 % of the radius) still arms the hold timer,
because the source compares against 40 % of the SIZE (that is, 80 % of the
radius). -/
theorem drag_arm_zone_counterexample :
    buttonCenterDistance 80 50 0 0 100 100 = 30 ∧
    dragTimerArmed true true 80 50 0 0 100 100 100 ∧
    ¬(buttonCenterDistance 80 50 0 0 100 100 < 0.4 * (100 / 2)) ∧
    (btnTouchStart false true true btnInit true true).1.timerPending = true := by
  have h30 : buttonCenterDistance 80 50 0 0 100 100 = 30 := by
    unfold buttonCenterDistance
    exact touchDistance_eval _ _ _ _ 30 (by norm_num) (by norm_num)
  refine ⟨h30, ⟨rfl, rfl, by rw [h30]; norm_num⟩, by rw [h30]; norm_num,
    by decide⟩

/-- **C7 (amended).** On touch-start of a generic virtual button, the 350 ms
drag-activation hold timer is armed iff a position-change callback is
configured, the target element exists, and the touch lies within 40 % of the
button's SIZE — equivalently 80 % of its radius — of the center (given a
fresh touch: no touch already tracked and no timer already pending). -/
theorem drag_arm_zone_amended (isSystem hasPosCb hasPressDown targetOk nc : Bool)
    (tx ty rl rt rw rh size : ℝ) (s : BtnState)
    (hnc : nc = true ↔ buttonCenterDistance tx ty rl rt rw rh < size * 0.4)
    (hTA : s.touchActive = false) (hTP : s.timerPending = false) :
    ((btnTouchStart isSystem hasPosCb hasPressDown s targetOk nc).1.timerPending
        = true ↔
      dragTimerArmed hasPosCb targetOk tx ty rl rt rw rh size) ∧
    size * 0.4 = 0.8 * (size / 2) := by
  refine ⟨?_, by ring⟩
  unfold btnTouchStart dragTimerArmed
  cases hasPosCb with
  | false =>
      simp [hTA, hTP]
  | true =>
      cases targetOk with
      | false => simp [hTA, hTP]
      | true =>
          cases hN : nc with
          | false =>
              have hd : ¬(buttonCenterDistance tx ty rl rt rw rh < size * 0.4) :=
                fun hlt => by
                  have := hnc.mpr hlt
                  rw [hN] at this
                  cases this
              simp [hTA, hTP, hd]
          | true =>
              have hd := hnc.mp hN
              simp [hTA, hTP, hd]

/-- Witness for the amended C7: a touch 30 px from the center of a 100 px
button (inside 40 % of the size, outside 40 % of the radius) arms the timer
from the mount state. -/
theorem drag_arm_zone_amended_witness :
    (btnTouchStart false true true btnInit true true).1.timerPending = true ∧
    (100 : ℝ) * 0.4 = 0.8 * (100 / 2) := by
  have h30 : buttonCenterDistance 80 50 0 0 100 100 = 30 := by
    unfold buttonCenterDistance
    exact touchDistance_eval _ _ _ _ 30 (by norm_num) (by norm_num)
  have h := drag_arm_zone_amended false true true true true 80 50 0 0 100 100
    100 btnInit (by rw [h30]; norm_num) rfl rfl
  exact ⟨h.1.mpr ⟨rfl, rfl, by rw [h30]; norm_num⟩, h.2⟩

/-- **C8 counterexample.** The claim says that, with the D-pad's hold timer
pending, a touch-move beyond the movement threshold *enters drag mode* just as
the timer firing would.  On the concrete trace — center touch-start (timer
armed), then a 20 px move (beyond the source's 15 px threshold) — the code
instead CANCELS the pending timer and keeps `isDragging = false`, continuing
normal direction detection. -/
theorem dpad_move_enters_drag_counterexample :
    touchDistance 0 0 20 0 = 20 ∧ (20 : ℝ) > 15 ∧
    (dpadTouchStart Option.none true dpadInit 0 true true
        Dirs.none).1.timerPending = true ∧
    (dpadTouchMove Option.none true
        (dpadTouchStart Option.none true dpadInit 0 true true Dirs.none).1
        0 true true ⟨false, false, false, true⟩).1.isDragging = false ∧
    (dpadTouchMove Option.none true
        (dpadTouchStart Option.none true dpadInit 0 true true Dirs.none).1
        0 true true ⟨false, false, false, true⟩).1.timerPending = false ∧
    (dpadTouchMove Option.none true
        (dpadTouchStart Option.none true dpadInit 0 true true Dirs.none).1
        0 true true ⟨false, false, false, true⟩).1.dirs =
      ⟨false, false, false, true⟩ := by
  refine ⟨touchDistance_eval _ _ _ _ 20 (by norm_num) (by norm_num),
    by norm_num, by decide, by decide, by decide, by decide⟩

/-- **C8 (amended).** On the D-pad, while not dragging, a touch-move of the
tracked touch beyond the 15 px movement threshold cancels the pending
drag-activation hold timer — drag mode is NOT entered — and normal direction
detection continues (the move's computed direction set is stored and its diff
events are emitted). -/
theorem dpad_move_cancels_timer_amended
    (controls : Option (Direction → Option String)) (hasPosCb : Bool)
    (s : DpadState) (tid : Nat) (moved15 rectOk : Bool) (td : Dirs)
    (sx sy tx ty : ℝ) (hT : s.activeTouch = Option.some tid)
    (hD : s.isDragging = false)
    (hdist : touchDistance sx sy tx ty > 15)
    (hm : moved15 = true ↔ touchDistance sx sy tx ty > 15) :
    (dpadTouchMove controls hasPosCb s tid moved15 rectOk td).1.isDragging
        = false ∧
    (dpadTouchMove controls hasPosCb s tid moved15 rectOk td).1.timerPending
        = false ∧
    (rectOk = true →
      (dpadTouchMove controls hasPosCb s tid moved15 rectOk td).1.dirs = td ∧
      (dpadTouchMove controls hasPosCb s tid moved15 rectOk td).2 =
        updateDirEvents (dpadKeyCode controls) s.dirs td) := by
  have hm15 : moved15 = true := hm.mpr hdist
  unfold dpadTouchMove dpadApplyDirections
  rw [hm15]
  cases rectOk with
  | true => simp [hT, hD]
  | false => simp [hT, hD]

/-- Witness for the amended C8 at the counterexample's concrete trace. -/
theorem dpad_move_cancels_timer_amended_witness :
    (dpadTouchMove Option.none true
        ⟨Option.some 0, Dirs.none, false, true⟩ 0 true true
        ⟨false, false, false, true⟩).1.isDragging = false ∧
    (dpadTouchMove Option.none true
        ⟨Option.some 0, Dirs.none, false, true⟩ 0 true true
        ⟨false, false, false, true⟩).1.timerPending = false ∧
    (dpadTouchMove Option.none true
        ⟨Option.some 0, Dirs.none, false, true⟩ 0 true true
        ⟨false, false, false, true⟩).2 =
      updateDirEvents (dpadKeyCode Option.none) Dirs.none
        ⟨false, false, false, true⟩ := by
  have h20 : touchDistance 0 0 20 0 = 20 :=
    touchDistance_eval _ _ _ _ 20 (by norm_num) (by norm_num)
  have h := dpad_move_cancels_timer_amended Option.none true
    ⟨Option.some 0, Dirs.none, false, true⟩ 0 true true
    ⟨false, false, false, true⟩ 0 0 20 0 rfl rfl
    (by rw [h20]; norm_num) (by rw [h20]; norm_num)
  exact ⟨h.1, h.2.1, (h.2.2 rfl).2⟩

/-- **C10.** On a generic virtual button with a position-change callback, any
touch-move farther than 10 px from the touch-start point while not yet
dragging clears any pending hold timer and enters drag mode, releasing a
non-system button's press — regardless of whether the initial touch was in
the central arming zone (the pending-timer flag is unconstrained). -/
theorem button_move_starts_drag (isSystem : Bool) (s : BtnState)
    (moved10 : Bool) (sx sy tx ty : ℝ)
    (hTA : s.touchActive = true) (hD : s.isDragging = false)
    (hdist : touchDistance sx sy tx ty > 10)
    (hm : moved10 = true ↔ touchDistance sx sy tx ty > 10) :
    (btnTouchMove isSystem true s moved10).1.isDragging = true ∧
    (btnTouchMove isSystem true s moved10).1.timerPending = false ∧
    (isSystem = false →
      BtnEv.release ∈ (btnTouchMove isSystem true s moved10).2 ∧
      (btnTouchMove isSystem true s moved10).1.engaged = false) := by
  have hm10 : moved10 = true := hm.mpr hdist
  unfold btnTouchMove btnStartDragging
  rw [hm10]
  cases isSystem with
  | true => simp [hTA, hD]
  | false => simp [hTA, hD]

/-- Witness for C10: from a state with the touch landed OUTSIDE the arming
zone (no pending timer) and the press engaged, an 11 px move (distance
`√(11² + 0²) = 11 > 10`) enters drag mode and emits the release callback. -/
theorem button_move_starts_drag_witness :
    (btnTouchMove false true ⟨true, false, false, true⟩ true).1.isDragging
        = true ∧
    BtnEv.release ∈ (btnTouchMove false true ⟨true, false, false, true⟩ true).2 ∧
    (btnTouchMove false true ⟨true, false, false, true⟩ true).1.engaged
        = false := by
  have h11 : touchDistance 0 0 11 0 = 11 :=
    touchDistance_eval _ _ _ _ 11 (by norm_num) (by norm_num)
  have h := button_move_starts_drag false ⟨true, false, false, true⟩ true
    0 0 11 0 rfl rfl (by rw [h11]; norm_num) (by rw [h11]; norm_num)
  exact ⟨h.1, (h.2.2 rfl).1, (h.2.2 rfl).2⟩

end VC
